import Mathlib

/-!
Verification of the `Date` component of the fastdate repository
(`src/date.rs`): fixed-width `YYYY-MM-DD` parsing, canonical formatting,
projection from a richer timestamp, and ordering.

Bytes are modelled as natural numbers below 256; byte strings as
`List Nat`.  Machine arithmetic that can wrap (`u8` addition and the
`u16 → u8` cast in the formatter) is modelled with an explicit `% 256`.
-/

namespace Fastdate

/-- The `Date` struct of `src/date.rs`: fields `day : u8`, `mon : u8`,
`year : u16`, modelled as naturals. -/
structure Date where
  day : Nat
  mon : Nat
  year : Nat
deriving DecidableEq, Repr

/-- The crate's error type, as used in `src/date.rs`: a classified failure
carrying a reason string (`Error::E(String)`). -/
inductive Error where
  | E : String → Error
deriving DecidableEq, Repr

/-- Modelled from the spec: the digit test of the `get_digit_unchecked!`
macro (declared outside this file) — a byte is an ASCII decimal digit
when it lies in `'0'..='9'`, i.e. `48..=57`. -/
abbrev isAsciiDigit (b : Nat) : Prop := 48 ≤ b ∧ b ≤ 57

/-- The `max_days` match of `Date::parse_bytes_partial`: number of days of
the month, `none` when the month is outside `1..=12` (the source's
`_ => return Err("OutOfRangeMonth")` arm). -/
def max_days_of_month (month year : Nat) : Option Nat :=
  if month = 1 ∨ month = 3 ∨ month = 5 ∨ month = 7 ∨ month = 8 ∨ month = 10 ∨ month = 12 then
    some 31
  else if month = 4 ∨ month = 6 ∨ month = 9 ∨ month = 11 then
    some 30
  else if month = 2 then
    some (if year % 4 = 0 ∧ (year % 100 ≠ 0 ∨ year % 400 = 0) then 29 else 28)
  else
    none

/-- Days in a month for a valid month `1..=12` (the successful value of
`max_days_of_month`). -/
def days_in_month (month year : Nat) : Nat :=
  (max_days_of_month month year).getD 0

/-- The local binding `year = y1 * 1000 + y2 * 100 + y3 * 10 + y4` of
`Date::parse_bytes_partial` as a reducible decoder of bytes 0-3. -/
abbrev yearOf (bytes : List Nat) : Nat :=
  (bytes.getD 0 0 - 48) * 1000 + (bytes.getD 1 0 - 48) * 100 +
    (bytes.getD 2 0 - 48) * 10 + (bytes.getD 3 0 - 48)

/-- The local binding `month = m1 * 10 + m2` of `Date::parse_bytes_partial`
as a reducible decoder of bytes 5-6. -/
abbrev monthOf (bytes : List Nat) : Nat :=
  (bytes.getD 5 0 - 48) * 10 + (bytes.getD 6 0 - 48)

/-- The local binding `day = d1 * 10 + d2` of `Date::parse_bytes_partial`
as a reducible decoder of bytes 8-9. -/
abbrev dayOf (bytes : List Nat) : Nat :=
  (bytes.getD 8 0 - 48) * 10 + (bytes.getD 9 0 - 48)

/-- `Date::parse_bytes_partial` from `src/date.rs`.  Early `return Err`
statements become an `if`/`else` cascade in source order; the
`get_digit_unchecked!` expansions become the digit tests and the `- 48`
subtractions inside `yearOf`/`monthOf`/`dayOf`, which stand for the pure
local bindings `year`, `month`, `day` of the source.  After the up-front
length check the source's unchecked indexing is in bounds, so
`List.getD _ _ 0` reads the same bytes. -/
def Date.parse_bytes_partial (bytes : List Nat) : Except Error Date :=
  if bytes.length < 10 then Except.error (Error.E "TooShort")
  else if ¬ isAsciiDigit (bytes.getD 0 0) then Except.error (Error.E "InvalidCharYear")
  else if ¬ isAsciiDigit (bytes.getD 1 0) then Except.error (Error.E "InvalidCharYear")
  else if ¬ isAsciiDigit (bytes.getD 2 0) then Except.error (Error.E "InvalidCharYear")
  else if ¬ isAsciiDigit (bytes.getD 3 0) then Except.error (Error.E "InvalidCharYear")
  else if bytes.getD 4 0 ≠ 45 then Except.error (Error.E "InvalidCharDateSep")
  else if ¬ isAsciiDigit (bytes.getD 5 0) then Except.error (Error.E "InvalidCharMonth")
  else if ¬ isAsciiDigit (bytes.getD 6 0) then Except.error (Error.E "InvalidCharMonth")
  else if bytes.getD 7 0 ≠ 45 then Except.error (Error.E "InvalidCharDateSep")
  else if ¬ isAsciiDigit (bytes.getD 8 0) then Except.error (Error.E "InvalidCharDay")
  else if ¬ isAsciiDigit (bytes.getD 9 0) then Except.error (Error.E "InvalidCharDay")
  else
    match max_days_of_month (monthOf bytes) (yearOf bytes) with
    | Option.none => Except.error (Error.E "OutOfRangeMonth")
    | Option.some max_days =>
      if dayOf bytes < 1 ∨ dayOf bytes > max_days then
        Except.error (Error.E "OutOfRangeDay")
      else
        Except.ok (Date.mk (dayOf bytes) (monthOf bytes) (yearOf bytes))

/-- Modelled from the spec: the `DateTime` type (declared outside this
file) is a richer timestamp exposing `day`, `mon`, `year` fields of the
same numeric ranges plus time-of-day fields. -/
structure DateTime where
  micro : Nat
  sec : Nat
  min : Nat
  hour : Nat
  day : Nat
  mon : Nat
  year : Nat
deriving DecidableEq, Repr

/-- `impl From<DateTime> for Date` from `src/date.rs`: copy the three
calendar fields verbatim, no validation. -/
def Date.fromDateTime (arg : DateTime) : Date :=
  { day := arg.day, mon := arg.mon, year := arg.year }

/-- The byte content of `impl Display for Date` from `src/date.rs`: a
10-byte buffer initialised to `"0000-00-00"` (so bytes 4 and 7 stay
`'-'` = 45) whose digit positions are overwritten.  Rust's `as u8` casts
of the `u16` year quotients and the `u8` additions `b'0' + _` are modelled
with an explicit `% 256`. -/
def Date.fmt (d : Date) : List Nat :=
  [(48 + d.year / 1000 % 256) % 256,
   (48 + d.year / 100 % 10 % 256) % 256,
   (48 + d.year / 10 % 10 % 256) % 256,
   (48 + d.year % 10 % 256) % 256,
   45,
   (48 + d.mon / 10) % 256,
   (48 + d.mon % 10) % 256,
   45,
   (48 + d.day / 10) % 256,
   (48 + d.day % 10) % 256]

/-- Modelled from the spec: the ordering of `Date` (implemented outside
this file) compares `year` first, then `mon`, then `day`. -/
def Date.cmp (a b : Date) : Ordering :=
  (compare a.year b.year).then ((compare a.mon b.mon).then (compare a.day b.day))

/-- Modelled from the spec: `a < b` for dates holds when the chained
comparison yields `lt`. -/
def Date.lt (a b : Date) : Prop := Date.cmp a b = Ordering.lt

/-- The failure classification of claim C4, written as a first-failing
condition scan in the claim's enumerated order.  Compared with the
source-derived `Date.parse_bytes_partial` below. -/
def spec_first_failure (bytes : List Nat) : Option String :=
  if bytes.length < 10 then some "TooShort"
  else if ¬ (isAsciiDigit (bytes.getD 0 0) ∧ isAsciiDigit (bytes.getD 1 0) ∧
      isAsciiDigit (bytes.getD 2 0) ∧ isAsciiDigit (bytes.getD 3 0)) then some "InvalidCharYear"
  else if bytes.getD 4 0 ≠ 45 then some "InvalidCharDateSep"
  else if ¬ (isAsciiDigit (bytes.getD 5 0) ∧ isAsciiDigit (bytes.getD 6 0)) then
    some "InvalidCharMonth"
  else if bytes.getD 7 0 ≠ 45 then some "InvalidCharDateSep"
  else if ¬ (isAsciiDigit (bytes.getD 8 0) ∧ isAsciiDigit (bytes.getD 9 0)) then
    some "InvalidCharDay"
  else if ¬ (1 ≤ monthOf bytes ∧ monthOf bytes ≤ 12) then some "OutOfRangeMonth"
  else if ¬ (1 ≤ dayOf bytes ∧
      dayOf bytes ≤ days_in_month (monthOf bytes) (yearOf bytes)) then some "OutOfRangeDay"
  else none

/-! ### Helper lemmas -/

lemma max_days_eq_none_iff (m y : Nat) :
    max_days_of_month m y = none ↔ (m = 0 ∨ 13 ≤ m) := by
  unfold max_days_of_month
  split_ifs <;> simp_all <;> omega

lemma max_days_eq_some (m y : Nat) (h1 : 1 ≤ m) (h2 : m ≤ 12) :
    max_days_of_month m y = some (days_in_month m y) := by
  unfold days_in_month
  rcases h : max_days_of_month m y with _ | k
  · rw [max_days_eq_none_iff] at h
    omega
  · rfl

lemma max_days_le_31 (m y : Nat) (h1 : 1 ≤ m) (h2 : m ≤ 12) :
    28 ≤ days_in_month m y ∧ days_in_month m y ≤ 31 := by
  unfold days_in_month max_days_of_month
  split_ifs <;> simp_all <;> omega

lemma getD_take_of_lt (l : List Nat) (n i : Nat) (h : i < n) :
    (l.take n).getD i 0 = l.getD i 0 := by
  simp [List.getD_eq_getElem?_getD, List.getElem?_take, h]

lemma take_ten_eq (l : List Nat) (h : 10 ≤ l.length) :
    l.take 10 = [l.getD 0 0, l.getD 1 0, l.getD 2 0, l.getD 3 0, l.getD 4 0,
      l.getD 5 0, l.getD 6 0, l.getD 7 0, l.getD 8 0, l.getD 9 0] := by
  rcases l with _ | ⟨b0, l⟩; · simp at h
  rcases l with _ | ⟨b1, l⟩; · simp at h
  rcases l with _ | ⟨b2, l⟩; · simp at h
  rcases l with _ | ⟨b3, l⟩; · simp at h
  rcases l with _ | ⟨b4, l⟩; · simp at h
  rcases l with _ | ⟨b5, l⟩; · simp at h
  rcases l with _ | ⟨b6, l⟩; · simp at h
  rcases l with _ | ⟨b7, l⟩; · simp at h
  rcases l with _ | ⟨b8, l⟩; · simp at h
  rcases l with _ | ⟨b9, l⟩; · simp at h
  simp [List.getD]

lemma max_days_some_range (m y k : Nat) (h : max_days_of_month m y = some k) :
    (1 ≤ m ∧ m ≤ 12) ∧ k = days_in_month m y := by
  have hr : 1 ≤ m ∧ m ≤ 12 := by
    by_contra hc
    have hn : max_days_of_month m y = none := (max_days_eq_none_iff m y).2 (by omega)
    rw [hn] at h
    exact absurd h (by simp)
  refine ⟨hr, ?_⟩
  rw [max_days_eq_some m y hr.1 hr.2] at h
  exact (Option.some.injEq _ _ ▸ h).symm

/-- Characterisation of a successful parse: exactly the well-formedness
and range conditions of the source hold, and the fields are the decoded
values. -/
lemma parse_ok_iff (bytes : List Nat) (d : Date) :
    Date.parse_bytes_partial bytes = Except.ok d ↔
      10 ≤ bytes.length ∧
      isAsciiDigit (bytes.getD 0 0) ∧ isAsciiDigit (bytes.getD 1 0) ∧
      isAsciiDigit (bytes.getD 2 0) ∧ isAsciiDigit (bytes.getD 3 0) ∧
      bytes.getD 4 0 = 45 ∧
      isAsciiDigit (bytes.getD 5 0) ∧ isAsciiDigit (bytes.getD 6 0) ∧
      bytes.getD 7 0 = 45 ∧
      isAsciiDigit (bytes.getD 8 0) ∧ isAsciiDigit (bytes.getD 9 0) ∧
      1 ≤ monthOf bytes ∧ monthOf bytes ≤ 12 ∧
      1 ≤ dayOf bytes ∧ dayOf bytes ≤ days_in_month (monthOf bytes) (yearOf bytes) ∧
      d.year = yearOf bytes ∧ d.mon = monthOf bytes ∧ d.day = dayOf bytes := by
  obtain ⟨dd, dm, dy⟩ := d
  constructor
  · intro h
    rw [ Date.parse_bytes_partial.eq_def] at h
    by_cases h1 : bytes.length < 10
    · rw [if_pos h1] at h
      exact Except.noConfusion h
    rw [if_neg h1] at h
    by_cases h2 : isAsciiDigit (bytes.getD 0 0)
    case neg =>
      rw [if_pos h2] at h
      exact Except.noConfusion h
    rw [if_neg (not_not_intro h2)] at h
    by_cases h3 : isAsciiDigit (bytes.getD 1 0)
    case neg =>
      rw [if_pos h3] at h
      exact Except.noConfusion h
    rw [if_neg (not_not_intro h3)] at h
    by_cases h4 : isAsciiDigit (bytes.getD 2 0)
    case neg =>
      rw [if_pos h4] at h
      exact Except.noConfusion h
    rw [if_neg (not_not_intro h4)] at h
    by_cases h5 : isAsciiDigit (bytes.getD 3 0)
    case neg =>
      rw [if_pos h5] at h
      exact Except.noConfusion h
    rw [if_neg (not_not_intro h5)] at h
    by_cases h6 : bytes.getD 4 0 = 45
    case neg =>
      rw [if_pos h6] at h
      exact Except.noConfusion h
    rw [if_neg (not_not_intro h6)] at h
    by_cases h7 : isAsciiDigit (bytes.getD 5 0)
    case neg =>
      rw [if_pos h7] at h
      exact Except.noConfusion h
    rw [if_neg (not_not_intro h7)] at h
    by_cases h8 : isAsciiDigit (bytes.getD 6 0)
    case neg =>
      rw [if_pos h8] at h
      exact Except.noConfusion h
    rw [if_neg (not_not_intro h8)] at h
    by_cases h9 : bytes.getD 7 0 = 45
    case neg =>
      rw [if_pos h9] at h
      exact Except.noConfusion h
    rw [if_neg (not_not_intro h9)] at h
    by_cases h10 : isAsciiDigit (bytes.getD 8 0)
    case neg =>
      rw [if_pos h10] at h
      exact Except.noConfusion h
    rw [if_neg (not_not_intro h10)] at h
    by_cases h11 : isAsciiDigit (bytes.getD 9 0)
    case neg =>
      rw [if_pos h11] at h
      exact Except.noConfusion h
    rw [if_neg (not_not_intro h11)] at h
    rcases hmd : max_days_of_month (monthOf bytes) (yearOf bytes) with _ | k
    · rw [hmd] at h
      exact Except.noConfusion h
    rw [hmd] at h
    dsimp only [] at h
    obtain ⟨hr, hke⟩ := max_days_some_range _ _ _ hmd
    by_cases h12 : dayOf bytes < 1 ∨ dayOf bytes > k
    · rw [if_pos h12] at h
      exact Except.noConfusion h
    rw [if_neg h12] at h
    injection h with h13
    injection h13 with e1 e2 e3
    subst e1
    subst e2
    subst e3
    subst hke
    exact ⟨by omega, h2, h3, h4, h5, h6, h7, h8, h9, h10, h11,
      hr.1, hr.2, by omega, by omega, rfl, rfl, rfl⟩
  · rintro ⟨hlen, h0, h1, h2, h3, h4, h5, h6, h7, h8, h9, hm1, hm2, hd1, hd2, hyr, hmn, hdy⟩
    subst hyr
    subst hmn
    subst hdy
    rw [ Date.parse_bytes_partial.eq_def]
    rw [if_neg (by omega : ¬ bytes.length < 10), if_neg (not_not_intro h0),
      if_neg (not_not_intro h1), if_neg (not_not_intro h2), if_neg (not_not_intro h3),
      if_neg (not_not_intro h4), if_neg (not_not_intro h5), if_neg (not_not_intro h6),
      if_neg (not_not_intro h7), if_neg (not_not_intro h8), if_neg (not_not_intro h9)]
    rw [max_days_eq_some _ _ hm1 hm2]
    dsimp only []
    rw [if_neg (by omega)]

/-- With in-range fields the formatter's `% 256` wraps are the identity:
no `u8` addition overflows and no `u16 → u8` cast truncates. -/
lemma fmt_eq_unwrapped (d : Date) (hy : d.year ≤ 9999) (hm : d.mon ≤ 99) (hd : d.day ≤ 99) :
    Date.fmt d = [48 + d.year / 1000, 48 + d.year / 100 % 10, 48 + d.year / 10 % 10,
      48 + d.year % 10, 45, 48 + d.mon / 10, 48 + d.mon % 10, 45,
      48 + d.day / 10, 48 + d.day % 10] := by
  simp only [ Date.fmt, List.cons.injEq, and_true]
  repeat' apply And.intro
  all_goals first | trivial | omega

/-- The formatter output read back through the parser's accessors. -/
lemma fmt_facts (d : Date) (hy : d.year ≤ 9999) (hm : d.mon ≤ 99) (hd : d.day ≤ 99) :
    (Date.fmt d).length = 10 ∧
    isAsciiDigit ((Date.fmt d).getD 0 0) ∧ isAsciiDigit ((Date.fmt d).getD 1 0) ∧
    isAsciiDigit ((Date.fmt d).getD 2 0) ∧ isAsciiDigit ((Date.fmt d).getD 3 0) ∧
    (Date.fmt d).getD 4 0 = 45 ∧
    isAsciiDigit ((Date.fmt d).getD 5 0) ∧ isAsciiDigit ((Date.fmt d).getD 6 0) ∧
    (Date.fmt d).getD 7 0 = 45 ∧
    isAsciiDigit ((Date.fmt d).getD 8 0) ∧ isAsciiDigit ((Date.fmt d).getD 9 0) ∧
    yearOf (Date.fmt d) = d.year ∧ monthOf (Date.fmt d) = d.mon ∧ dayOf (Date.fmt d) = d.day := by
  rw [fmt_eq_unwrapped d hy hm hd]
  simp only [yearOf, monthOf, dayOf, isAsciiDigit]
  simp
  omega

/-- C1: for every valid `Date` (month in `1..=12`, day in
`1..=days_in_month`, year at most 9999), parsing the formatted
10-character output returns exactly that `Date`. -/
theorem parse_format_roundtrip (d : Date) (hm1 : 1 ≤ d.mon) (hm2 : d.mon ≤ 12)
    (hd1 : 1 ≤ d.day) (hd2 : d.day ≤ days_in_month d.mon d.year) (hy : d.year ≤ 9999) :
    Date.parse_bytes_partial (Date.fmt d) = Except.ok d := by
  have h31 := max_days_le_31 d.mon d.year hm1 hm2
  obtain ⟨hlen, g0, g1, g2, g3, g4, g5, g6, g7, g8, g9, hyf, hmf, hdf⟩ :=
    fmt_facts d hy (by omega) (by omega)
  rw [parse_ok_iff, hyf, hmf, hdf]
  exact ⟨by omega, g0, g1, g2, g3, g4, g5, g6, g7, g8, g9,
    hm1, hm2, hd1, hd2, rfl, rfl, rfl⟩

/-- Witness for C1 at the concrete date 2000-02-29. -/
theorem parse_format_roundtrip_witness :
    1 ≤ (Date.mk 29 2 2000).mon ∧ (Date.mk 29 2 2000).mon ≤ 12 ∧
    1 ≤ (Date.mk 29 2 2000).day ∧
    (Date.mk 29 2 2000).day ≤ days_in_month (Date.mk 29 2 2000).mon (Date.mk 29 2 2000).year ∧
    (Date.mk 29 2 2000).year ≤ 9999 ∧
    Date.parse_bytes_partial (Date.fmt (Date.mk 29 2 2000)) = Except.ok (Date.mk 29 2 2000) :=
  ⟨by decide, by decide, by decide, by decide, by decide,
    parse_format_roundtrip (Date.mk 29 2 2000) (by decide) (by decide) (by decide)
      (by decide) (by decide)⟩

/-- C2: whenever a byte sequence parses successfully, formatting the
parsed value reproduces exactly its first 10 bytes. -/
theorem format_parse_prefix (bytes : List Nat) (d : Date)
    (h : Date.parse_bytes_partial bytes = Except.ok d) :
    Date.fmt d = bytes.take 10 := by
  obtain ⟨dd, dm, dy⟩ := d
  rw [parse_ok_iff] at h
  obtain ⟨hlen, h0, h1, h2, h3, h4, h5, h6, h7, h8, h9, hm1, hm2, hd1, hd2, hyr, hmn, hdy⟩ := h
  obtain ⟨h0a, h0b⟩ := h0
  obtain ⟨h1a, h1b⟩ := h1
  obtain ⟨h2a, h2b⟩ := h2
  obtain ⟨h3a, h3b⟩ := h3
  obtain ⟨h5a, h5b⟩ := h5
  obtain ⟨h6a, h6b⟩ := h6
  obtain ⟨h8a, h8b⟩ := h8
  obtain ⟨h9a, h9b⟩ := h9
  subst hyr
  subst hmn
  subst hdy
  have hy9 : yearOf bytes ≤ 9999 := by simp only [yearOf]; omega
  have hm9 : monthOf bytes ≤ 99 := by simp only [monthOf]; omega
  have hd9 : dayOf bytes ≤ 99 := by simp only [dayOf]; omega
  rw [take_ten_eq bytes hlen, fmt_eq_unwrapped _ hy9 hm9 hd9]
  simp only [yearOf, monthOf, dayOf, List.cons.injEq, and_true]
  omega

/-- Witness for C2 at `"1234-12-13 1"` (with trailing bytes). -/
theorem format_parse_prefix_witness :
    Date.fmt (Date.mk 13 12 1234) =
      List.take 10 [49, 50, 51, 52, 45, 49, 50, 45, 49, 51, 32, 49] :=
  format_parse_prefix [49, 50, 51, 52, 45, 49, 50, 45, 49, 51, 32, 49]
    (Date.mk 13 12 1234) rfl

/-- C3: with at least 10 bytes of input, bytes at offset 10 and beyond
never influence the parse result. -/
theorem parse_ignores_trailing (bytes : List Nat) (h : 10 ≤ bytes.length) :
    Date.parse_bytes_partial bytes = Date.parse_bytes_partial (bytes.take 10) := by
  have e0 := getD_take_of_lt bytes 10 0 (by norm_num)
  have e1 := getD_take_of_lt bytes 10 1 (by norm_num)
  have e2 := getD_take_of_lt bytes 10 2 (by norm_num)
  have e3 := getD_take_of_lt bytes 10 3 (by norm_num)
  have e4 := getD_take_of_lt bytes 10 4 (by norm_num)
  have e5 := getD_take_of_lt bytes 10 5 (by norm_num)
  have e6 := getD_take_of_lt bytes 10 6 (by norm_num)
  have e7 := getD_take_of_lt bytes 10 7 (by norm_num)
  have e8 := getD_take_of_lt bytes 10 8 (by norm_num)
  have e9 := getD_take_of_lt bytes 10 9 (by norm_num)
  have hlen2 : ¬ (bytes.take 10).length < 10 := by
    rw [List.length_take]
    omega
  rw [ Date.parse_bytes_partial.eq_def, Date.parse_bytes_partial.eq_def]
  simp only [yearOf, monthOf, dayOf]
  rw [e0, e1, e2, e3, e4, e5, e6, e7, e8, e9]
  rw [if_neg (by omega : ¬ bytes.length < 10), if_neg hlen2]

/-- Witness for C3 at `"1234-12-13 11:12:13.123456"`. -/
theorem parse_ignores_trailing_witness :
    10 ≤ ([49, 50, 51, 52, 45, 49, 50, 45, 49, 51, 32, 49, 49, 58, 49, 50, 58, 49, 51,
      46, 49, 50, 51, 52, 53, 54] : List Nat).length ∧
    Date.parse_bytes_partial [49, 50, 51, 52, 45, 49, 50, 45, 49, 51, 32, 49, 49, 58, 49, 50,
        58, 49, 51, 46, 49, 50, 51, 52, 53, 54] =
      Date.parse_bytes_partial (List.take 10 [49, 50, 51, 52, 45, 49, 50, 45, 49, 51, 32, 49,
        49, 58, 49, 50, 58, 49, 51, 46, 49, 50, 51, 52, 53, 54]) :=
  ⟨by decide, parse_ignores_trailing [49, 50, 51, 52, 45, 49, 50, 45, 49, 51, 32, 49, 49, 58,
    49, 50, 58, 49, 51, 46, 49, 50, 51, 52, 53, 54] (by decide)⟩

/-- C6: every `Date` produced by a successful parse satisfies the type's
invariants: month in `1..=12`, day in `1..=days_in_month`, and a year of
at most four decimal digits. -/
theorem parse_ok_invariants (bytes : List Nat) (d : Date)
    (h : Date.parse_bytes_partial bytes = Except.ok d) :
    1 ≤ d.mon ∧ d.mon ≤ 12 ∧ 1 ≤ d.day ∧ d.day ≤ days_in_month d.mon d.year ∧
      d.year ≤ 9999 := by
  rw [parse_ok_iff] at h
  obtain ⟨hlen, h0, h1, h2, h3, h4, h5, h6, h7, h8, h9, hm1, hm2, hd1, hd2, hyr, hmn, hdy⟩ := h
  obtain ⟨h0a, h0b⟩ := h0
  obtain ⟨h1a, h1b⟩ := h1
  obtain ⟨h2a, h2b⟩ := h2
  obtain ⟨h3a, h3b⟩ := h3
  rw [hyr, hmn, hdy]
  exact ⟨hm1, hm2, hd1, hd2, by simp only [yearOf]; omega⟩

/-- Witness for C6 at `"2024-02-29"`. -/
theorem parse_ok_invariants_witness :
    1 ≤ (Date.mk 29 2 2024).mon ∧ (Date.mk 29 2 2024).mon ≤ 12 ∧
    1 ≤ (Date.mk 29 2 2024).day ∧
    (Date.mk 29 2 2024).day ≤ days_in_month (Date.mk 29 2 2024).mon (Date.mk 29 2 2024).year ∧
    (Date.mk 29 2 2024).year ≤ 9999 :=
  parse_ok_invariants [50, 48, 50, 52, 45, 48, 50, 45, 50, 57] (Date.mk 29 2 2024) rfl

/-- February's day count from the source's leap-year arithmetic. -/
lemma feb_days (y : Nat) :
    days_in_month 2 y = if y % 4 = 0 ∧ (y % 100 ≠ 0 ∨ y % 400 = 0) then 29 else 28 := by
  simp [days_in_month, max_days_of_month]

/-- Full refinement of the parser against the first-failing-condition
classifier: the source's check cascade returns exactly the claimed first
failure, and the decoded date when no condition fails. -/
lemma parse_eq_spec (bytes : List Nat) :
    Date.parse_bytes_partial bytes =
      (match spec_first_failure bytes with
       | Option.some e => Except.error (Error.E e)
       | Option.none =>
         Except.ok (Date.mk (dayOf bytes) (monthOf bytes) (yearOf bytes))) := by
  rw [ Date.parse_bytes_partial.eq_def, spec_first_failure.eq_def]
  by_cases h1 : bytes.length < 10
  · rw [if_pos h1, if_pos h1]
  rw [if_neg h1, if_neg h1]
  by_cases h2 : isAsciiDigit (bytes.getD 0 0)
  case neg =>
    rw [if_pos h2, if_pos (show ¬ (isAsciiDigit (bytes.getD 0 0) ∧ isAsciiDigit (bytes.getD 1 0) ∧
      isAsciiDigit (bytes.getD 2 0) ∧ isAsciiDigit (bytes.getD 3 0)) from fun hc => h2 hc.1)]
  rw [if_neg (not_not_intro h2)]
  by_cases h3 : isAsciiDigit (bytes.getD 1 0)
  case neg =>
    rw [if_pos h3, if_pos (show ¬ (isAsciiDigit (bytes.getD 0 0) ∧ isAsciiDigit (bytes.getD 1 0) ∧
      isAsciiDigit (bytes.getD 2 0) ∧ isAsciiDigit (bytes.getD 3 0)) from fun hc => h3 hc.2.1)]
  rw [if_neg (not_not_intro h3)]
  by_cases h4 : isAsciiDigit (bytes.getD 2 0)
  case neg =>
    rw [if_pos h4, if_pos (show ¬ (isAsciiDigit (bytes.getD 0 0) ∧ isAsciiDigit (bytes.getD 1 0) ∧
      isAsciiDigit (bytes.getD 2 0) ∧ isAsciiDigit (bytes.getD 3 0)) from fun hc => h4 hc.2.2.1)]
  rw [if_neg (not_not_intro h4)]
  by_cases h5 : isAsciiDigit (bytes.getD 3 0)
  case neg =>
    rw [if_pos h5, if_pos (show ¬ (isAsciiDigit (bytes.getD 0 0) ∧ isAsciiDigit (bytes.getD 1 0) ∧
      isAsciiDigit (bytes.getD 2 0) ∧ isAsciiDigit (bytes.getD 3 0)) from fun hc => h5 hc.2.2.2)]
  rw [if_neg (not_not_intro h5), if_neg (not_not_intro
    (show isAsciiDigit (bytes.getD 0 0) ∧ isAsciiDigit (bytes.getD 1 0) ∧
      isAsciiDigit (bytes.getD 2 0) ∧ isAsciiDigit (bytes.getD 3 0) from ⟨h2, h3, h4, h5⟩))]
  by_cases h6 : bytes.getD 4 0 = 45
  case neg =>
    rw [if_pos h6, if_pos h6]
  rw [if_neg (not_not_intro h6), if_neg (not_not_intro h6)]
  by_cases h7 : isAsciiDigit (bytes.getD 5 0)
  case neg =>
    rw [if_pos h7, if_pos (show ¬ (isAsciiDigit (bytes.getD 5 0) ∧
      isAsciiDigit (bytes.getD 6 0)) from fun hc => h7 hc.1)]
  rw [if_neg (not_not_intro h7)]
  by_cases h8 : isAsciiDigit (bytes.getD 6 0)
  case neg =>
    rw [if_pos h8, if_pos (show ¬ (isAsciiDigit (bytes.getD 5 0) ∧
      isAsciiDigit (bytes.getD 6 0)) from fun hc => h8 hc.2)]
  rw [if_neg (not_not_intro h8), if_neg (not_not_intro
    (show isAsciiDigit (bytes.getD 5 0) ∧ isAsciiDigit (bytes.getD 6 0) from ⟨h7, h8⟩))]
  by_cases h9 : bytes.getD 7 0 = 45
  case neg =>
    rw [if_pos h9, if_pos h9]
  rw [if_neg (not_not_intro h9), if_neg (not_not_intro h9)]
  by_cases h10 : isAsciiDigit (bytes.getD 8 0)
  case neg =>
    rw [if_pos h10, if_pos (show ¬ (isAsciiDigit (bytes.getD 8 0) ∧
      isAsciiDigit (bytes.getD 9 0)) from fun hc => h10 hc.1)]
  rw [if_neg (not_not_intro h10)]
  by_cases h11 : isAsciiDigit (bytes.getD 9 0)
  case neg =>
    rw [if_pos h11, if_pos (show ¬ (isAsciiDigit (bytes.getD 8 0) ∧
      isAsciiDigit (bytes.getD 9 0)) from fun hc => h11 hc.2)]
  rw [if_neg (not_not_intro h11), if_neg (not_not_intro
    (show isAsciiDigit (bytes.getD 8 0) ∧ isAsciiDigit (bytes.getD 9 0) from ⟨h10, h11⟩))]
  by_cases hm : 1 ≤ monthOf bytes ∧ monthOf bytes ≤ 12
  case neg =>
    rw [(max_days_eq_none_iff (monthOf bytes) (yearOf bytes)).2 (by omega), if_pos hm]
  rw [max_days_eq_some (monthOf bytes) (yearOf bytes) hm.1 hm.2, if_neg (not_not_intro hm)]
  dsimp only []
  by_cases hd : 1 ≤ dayOf bytes ∧
      dayOf bytes ≤ days_in_month (monthOf bytes) (yearOf bytes)
  case neg =>
    rw [if_pos (show dayOf bytes < 1 ∨
      dayOf bytes > days_in_month (monthOf bytes) (yearOf bytes) from by omega), if_pos hd]
  rw [if_neg (show ¬ (dayOf bytes < 1 ∨
    dayOf bytes > days_in_month (monthOf bytes) (yearOf bytes)) from by omega),
    if_neg (not_not_intro hd)]

/-- C4: the parser checks its failure conditions in exactly the claimed
order, each producing its own classified failure; when several conditions
hold, the earlier one's failure is returned. -/
theorem parse_failure_order (bytes : List Nat) (e : String) :
    Date.parse_bytes_partial bytes = Except.error (Error.E e) ↔
      spec_first_failure bytes = some e := by
  rw [parse_eq_spec]
  rcases h : spec_first_failure bytes with _ | s
  · simp
  · simp

/-- C5: for every year of at most four digits, parsing `YYYY-02-29`
succeeds exactly under the Gregorian leap-year rule and fails with
`OutOfRangeDay` otherwise. -/
theorem feb29_leap_parse (y : Nat) (hy : y ≤ 9999) :
    Date.parse_bytes_partial [48 + y / 1000, 48 + y / 100 % 10, 48 + y / 10 % 10,
        48 + y % 10, 45, 48, 50, 45, 50, 57] =
      (if y % 4 = 0 ∧ (y % 100 ≠ 0 ∨ y % 400 = 0) then Except.ok (Date.mk 29 2 y)
       else Except.error (Error.E "OutOfRangeDay")) := by
  rw [parse_eq_spec]
  generalize hB : [48 + y / 1000, 48 + y / 100 % 10, 48 + y / 10 % 10,
    48 + y % 10, 45, 48, 50, 45, 50, 57] = B
  have g0 : B.getD 0 0 = 48 + y / 1000 := by rw [← hB]; rfl
  have g1 : B.getD 1 0 = 48 + y / 100 % 10 := by rw [← hB]; rfl
  have g2 : B.getD 2 0 = 48 + y / 10 % 10 := by rw [← hB]; rfl
  have g3 : B.getD 3 0 = 48 + y % 10 := by rw [← hB]; rfl
  have g4 : B.getD 4 0 = 45 := by rw [← hB]; rfl
  have g5 : B.getD 5 0 = 48 := by rw [← hB]; rfl
  have g6 : B.getD 6 0 = 50 := by rw [← hB]; rfl
  have g7 : B.getD 7 0 = 45 := by rw [← hB]; rfl
  have g8 : B.getD 8 0 = 50 := by rw [← hB]; rfl
  have g9 : B.getD 9 0 = 57 := by rw [← hB]; rfl
  have glen : B.length = 10 := by rw [← hB]; rfl
  have hyB : yearOf B = y := by simp only [yearOf, g0, g1, g2, g3]; omega
  have hmB : monthOf B = 2 := by simp only [monthOf, g5, g6]
  have hdB : dayOf B = 29 := by simp only [dayOf, g8, g9]
  have a0 : isAsciiDigit (B.getD 0 0) := by rw [g0]; exact ⟨by omega, by omega⟩
  have a1 : isAsciiDigit (B.getD 1 0) := by rw [g1]; exact ⟨by omega, by omega⟩
  have a2 : isAsciiDigit (B.getD 2 0) := by rw [g2]; exact ⟨by omega, by omega⟩
  have a3 : isAsciiDigit (B.getD 3 0) := by rw [g3]; exact ⟨by omega, by omega⟩
  have a5 : isAsciiDigit (B.getD 5 0) := by rw [g5]; exact ⟨by omega, by omega⟩
  have a6 : isAsciiDigit (B.getD 6 0) := by rw [g6]; exact ⟨by omega, by omega⟩
  have a8 : isAsciiDigit (B.getD 8 0) := by rw [g8]; exact ⟨by omega, by omega⟩
  have a9 : isAsciiDigit (B.getD 9 0) := by rw [g9]; exact ⟨by omega, by omega⟩
  rw [spec_first_failure.eq_def]
  rw [if_neg (show ¬ B.length < 10 from by omega)]
  rw [if_neg (not_not_intro (show isAsciiDigit (B.getD 0 0) ∧ isAsciiDigit (B.getD 1 0) ∧
    isAsciiDigit (B.getD 2 0) ∧ isAsciiDigit (B.getD 3 0) from ⟨a0, a1, a2, a3⟩))]
  rw [if_neg (not_not_intro g4)]
  rw [if_neg (not_not_intro (show isAsciiDigit (B.getD 5 0) ∧ isAsciiDigit (B.getD 6 0) from
    ⟨a5, a6⟩))]
  rw [if_neg (not_not_intro g7)]
  rw [if_neg (not_not_intro (show isAsciiDigit (B.getD 8 0) ∧ isAsciiDigit (B.getD 9 0) from
    ⟨a8, a9⟩))]
  rw [if_neg (not_not_intro (show 1 ≤ monthOf B ∧ monthOf B ≤ 12 from by omega))]
  rw [hdB, hmB, hyB, feb_days y]
  by_cases hleap : y % 4 = 0 ∧ (y % 100 ≠ 0 ∨ y % 400 = 0)
  · rw [if_pos hleap, if_pos hleap]
    rw [if_neg (not_not_intro (show (1 : Nat) ≤ 29 ∧ (29 : Nat) ≤ 29 from by omega))]
  · rw [if_neg hleap, if_neg hleap]
    rw [if_pos (show ¬ ((1 : Nat) ≤ 29 ∧ (29 : Nat) ≤ 28) from by omega)]

/-- Witness for C5 at the leap year 2000. -/
theorem feb29_leap_parse_witness :
    2000 ≤ 9999 ∧
    Date.parse_bytes_partial [48 + 2000 / 1000, 48 + 2000 / 100 % 10, 48 + 2000 / 10 % 10,
        48 + 2000 % 10, 45, 48, 50, 45, 50, 57] =
      (if 2000 % 4 = 0 ∧ (2000 % 100 ≠ 0 ∨ 2000 % 400 = 0) then Except.ok (Date.mk 29 2 2000)
       else Except.error (Error.E "OutOfRangeDay")) :=
  ⟨by norm_num, feb29_leap_parse 2000 (by norm_num)⟩

lemma ordering_then_eq_lt (o1 o2 : Ordering) :
    o1.then o2 = Ordering.lt ↔ o1 = Ordering.lt ∨ (o1 = Ordering.eq ∧ o2 = Ordering.lt) := by
  cases o1 <;> cases o2 <;> simp [Ordering.then]

/-- C7: formatting a validated `Date` yields exactly 10 bytes in the
layout `YYYY-MM-DD`: zero-padded digits recovered by division and
remainder by powers of ten, with `'-'` (45) at offsets 4 and 7; every
other byte is an ASCII digit.  (Formatting is a total function here, so
it never fails.) -/
theorem fmt_layout (d : Date) (hm1 : 1 ≤ d.mon) (hm2 : d.mon ≤ 12)
    (hd1 : 1 ≤ d.day) (hd2 : d.day ≤ days_in_month d.mon d.year) (hy : d.year ≤ 9999) :
    (Date.fmt d).length = 10 ∧
    Date.fmt d = [48 + d.year / 1000, 48 + d.year / 100 % 10, 48 + d.year / 10 % 10,
      48 + d.year % 10, 45, 48 + d.mon / 10, 48 + d.mon % 10, 45,
      48 + d.day / 10, 48 + d.day % 10] ∧
    (∀ b ∈ Date.fmt d, isAsciiDigit b ∨ b = 45) := by
  have h31 := max_days_le_31 d.mon d.year hm1 hm2
  have he := fmt_eq_unwrapped d hy (by omega) (by omega)
  refine ⟨rfl, he, ?_⟩
  rw [he]
  intro b hb
  simp only [List.mem_cons, List.not_mem_nil, or_false] at hb
  simp only [isAsciiDigit]
  omega

/-- Witness for C7 at the date 9999-12-31. -/
theorem fmt_layout_witness :
    1 ≤ (Date.mk 31 12 9999).mon ∧ (Date.mk 31 12 9999).mon ≤ 12 ∧
    1 ≤ (Date.mk 31 12 9999).day ∧
    (Date.mk 31 12 9999).day ≤ days_in_month (Date.mk 31 12 9999).mon (Date.mk 31 12 9999).year ∧
    (Date.mk 31 12 9999).year ≤ 9999 ∧
    ((Date.fmt (Date.mk 31 12 9999)).length = 10 ∧
     Date.fmt (Date.mk 31 12 9999) = [48 + (Date.mk 31 12 9999).year / 1000,
       48 + (Date.mk 31 12 9999).year / 100 % 10, 48 + (Date.mk 31 12 9999).year / 10 % 10,
       48 + (Date.mk 31 12 9999).year % 10, 45, 48 + (Date.mk 31 12 9999).mon / 10,
       48 + (Date.mk 31 12 9999).mon % 10, 45, 48 + (Date.mk 31 12 9999).day / 10,
       48 + (Date.mk 31 12 9999).day % 10] ∧
     (∀ b ∈ Date.fmt (Date.mk 31 12 9999), isAsciiDigit b ∨ b = 45)) :=
  ⟨by decide, by decide, by decide, by decide, by decide,
    fmt_layout (Date.mk 31 12 9999) (by decide) (by decide) (by decide) (by decide) (by decide)⟩

/-- C8: the modelled ordering of `Date` is exactly the lexicographic
order on the triple `(year, mon, day)`. -/
theorem lt_iff_lex (a b : Date) :
    Date.lt a b ↔
      (a.year < b.year ∨ (a.year = b.year ∧
        (a.mon < b.mon ∨ (a.mon = b.mon ∧ a.day < b.day)))) := by
  simp only [ Date.lt, Date.cmp, ordering_then_eq_lt, Nat.compare_eq_lt, Nat.compare_eq_eq]

/-- C9: deriving a `Date` from a `DateTime` copies the `day`, `mon` and
`year` fields verbatim for every `DateTime`, with no validation and no
failure path. -/
theorem fromDateTime_copies_fields (t : DateTime) :
    Date.fromDateTime t = Date.mk t.day t.mon t.year := rfl

/-- C10: with `year ≤ 9999`, `mon ≤ 99` and `day ≤ 99`, no `u8` addition
in the formatter overflows (every `% 256` wrap is the identity), and
every byte written is an ASCII digit or `'-'` — in particular below 128,
so the buffer is valid UTF-8 and the `from_utf8(..).unwrap()` cannot
panic. -/
theorem fmt_ascii_no_overflow (d : Date) (hy : d.year ≤ 9999) (hm : d.mon ≤ 99)
    (hd : d.day ≤ 99) :
    Date.fmt d = [48 + d.year / 1000, 48 + d.year / 100 % 10, 48 + d.year / 10 % 10,
      48 + d.year % 10, 45, 48 + d.mon / 10, 48 + d.mon % 10, 45,
      48 + d.day / 10, 48 + d.day % 10] ∧
    (∀ b ∈ Date.fmt d, (isAsciiDigit b ∨ b = 45) ∧ b < 128) := by
  have he := fmt_eq_unwrapped d hy hm hd
  refine ⟨he, ?_⟩
  rw [he]
  intro b hb
  simp only [List.mem_cons, List.not_mem_nil, or_false] at hb
  simp only [isAsciiDigit]
  omega

/-- Witness for C10 at the out-of-calendar but in-range field values
day = 99, mon = 99, year = 9999. -/
theorem fmt_ascii_no_overflow_witness :
    (Date.mk 99 99 9999).year ≤ 9999 ∧ (Date.mk 99 99 9999).mon ≤ 99 ∧
    (Date.mk 99 99 9999).day ≤ 99 ∧
    (Date.fmt (Date.mk 99 99 9999) = [48 + (Date.mk 99 99 9999).year / 1000,
       48 + (Date.mk 99 99 9999).year / 100 % 10, 48 + (Date.mk 99 99 9999).year / 10 % 10,
       48 + (Date.mk 99 99 9999).year % 10, 45, 48 + (Date.mk 99 99 9999).mon / 10,
       48 + (Date.mk 99 99 9999).mon % 10, 45, 48 + (Date.mk 99 99 9999).day / 10,
       48 + (Date.mk 99 99 9999).day % 10] ∧
     (∀ b ∈ Date.fmt (Date.mk 99 99 9999), (isAsciiDigit b ∨ b = 45) ∧ b < 128)) :=
  ⟨by decide, by decide, by decide,
    fmt_ascii_no_overflow (Date.mk 99 99 9999) (by decide) (by decide) (by decide)⟩

end Fastdate
